import Mathlib

/-
Verification development for the CernVM-FS server write-path core.

The reactor framing and reply/request handlers (src/cvmfs/receiver/reactor.cc)
and the repository-parameter loading (src/cvmfs/receiver/params.cc) are
embedded directly from the source.  The history store (only its unit tests are
in the tree) and the PendingFile upload-reconciliation dynamics (only the
header is in the tree) are modelled from the specification, as marked in the
doc comments of the corresponding definitions.

Byte streams are modelled as `List Nat`; 32-bit machine integers are modelled
as `Int` with explicit reduction modulo 2^32 and a signed reinterpretation of
the low 32 bits, mirroring the little-endian framing of the reactor.
-/

namespace receiver

/-- Value of four little-endian bytes as an unsigned 32-bit quantity. -/
def word32 (b0 b1 b2 b3 : Nat) : Nat :=
  b0 + 256 * b1 + 65536 * b2 + 16777216 * b3

/-- Little-endian byte decomposition of an unsigned 32-bit value. -/
def leBytes32 (n : Nat) : List Nat :=
  [n % 256, n / 256 % 256, n / 65536 % 256, n / 16777216 % 256]

/-- Reinterpret an unsigned 32-bit value as a signed `int32_t`. -/
def asInt32 (v : Nat) : Int :=
  if v < 2147483648 then (v : Int) else (v : Int) - 4294967296

/-- Serialize an `int32_t` as four little-endian bytes (the `memcpy` of a
32-bit field in `Reactor::WriteRequest` / `Reactor::WriteReply`). -/
def encodeInt32 (i : Int) : List Nat :=
  leBytes32 ((i % 4294967296).toNat)

/-- Model of `read(fd, &x, 4)` for a 32-bit field: four bytes are consumed and
combined little-endian; fewer than four available bytes is a short read. -/
def readInt32 : List Nat → Option (Int × List Nat)
  | b0 :: b1 :: b2 :: b3 :: rest => some (asInt32 (word32 b0 b1 b2 b3), rest)
  | _ => none

/-- Model of `read(fd, buf, n)`: consume exactly `n` bytes or fail short. -/
def readBytes (bs : List Nat) (n : Nat) : Option (List Nat × List Nat) :=
  if n ≤ bs.length then some (bs.take n, bs.drop n) else none

/-- Request code `kQuit` (command table of the reactor). -/
def kQuit : Int := 0

/-- Request code `kEcho`. -/
def kEcho : Int := 1

/-- Request code `kGenerateToken`. -/
def kGenerateToken : Int := 2

/-- Request code `kGetTokenId`. -/
def kGetTokenId : Int := 3

/-- Request code `kCheckToken`. -/
def kCheckToken : Int := 4

/-- Request code `kSubmitPayload`. -/
def kSubmitPayload : Int := 5

/-- Request code `kError` (error sentinel). -/
def kError : Int := -1

/-- Embedding of `Reactor::ReadRequest` (reactor.cc:23-56).  The result models
the returned `Request` value together with the contents of `*data`; the caller
(`Reactor::run`) clears the string before every call, so an untouched `*data`
is the empty byte list.  Note that when `msg_size` is not positive the source
returns `kQuit` without looking at `req_id`. -/
def ReadRequest (bs : List Nat) : Int × List Nat :=
  match readInt32 bs with
  | none => (kError, [])
  | some (req_id, rest) =>
    match readInt32 rest with
    | none => (kError, [])
    | some (msg_size, rest2) =>
      if req_id = kError then (kError, [])
      else if 0 < msg_size then
        match readBytes rest2 msg_size.toNat with
        | none => (kError, [])
        | some (body, _) => (req_id, body)
      else (kQuit, [])

/-- Embedding of `Reactor::WriteRequest` (reactor.cc:58-74): the byte frame it
writes, `req` then `msg_size = data.size()` as `int32_t`, then the body. -/
def WriteRequest (req : Int) (data : List Nat) : List Nat :=
  encodeInt32 req ++ encodeInt32 (data.length : Int) ++ data

/-- Embedding of `Reactor::ReadReply` (reactor.cc:76-94): a 32-bit size then
`msg_size` bytes of body; `none` models a `false` return.  A negative size
would index a `std::vector` constructor out of range, modelled as failure. -/
def ReadReply (bs : List Nat) : Option (List Nat) :=
  match readInt32 bs with
  | none => none
  | some (msg_size, rest) =>
    if msg_size < 0 then none
    else
      match readBytes rest msg_size.toNat with
      | none => none
      | some (body, _) => some body

/-- Embedding of `Reactor::WriteReply` (reactor.cc:96-111): the byte frame it
writes, `msg_size = data.size()` as `int32_t` followed by the body. -/
def WriteReply (data : List Nat) : List Nat :=
  encodeInt32 (data.length : Int) ++ data

/-- Embedding of the reply dispatch of `Reactor::HandleCheckToken`
(reactor.cc:214-228): the JSON reply fields chosen from the return value of
`receiver::CheckToken` and the lease path it produced.  The JSON body of the
request is assumed well-formed with string fields `token` and `secret`, which
is the precondition for reaching this dispatch. -/
def HandleCheckTokenReply (ret : Int) (lease_path : String) :
    List (String × String) :=
  if ret = 10 then [("status", "error"), ("reason", "expired_token")]
  else if 0 < ret then [("status", "error"), ("reason", "invalid_token")]
  else [("status", "ok"), ("path", lease_path)]


/-- Character-level split used to embed `SplitString` (the delimiter-separated
decomposition of a path into components). -/
def splitChars (delim : Char) : List Char → List (List Char)
  | [] => [[]]
  | x :: xs =>
    let r := splitChars delim xs
    if x == delim then [] :: r
    else
      match r with
      | [] => [[x]]
      | y :: ys => (x :: y) :: ys

/-- Embedding of `SplitString(str, delim)` from the utility library (its
implementation file is not in the tree): the delimiter-separated components
of the string, empty components included. -/
def SplitString (s : String) (delim : Char) : List String :=
  (splitChars delim s.data).map String.mk

/-- Embedding of `HasPrefix(str, prefix, ignore_case = false)` from the
utility library (implementation file not in the tree): a case-sensitive
prefix test. -/
def strStartsWith (s p : String) : Bool :=
  p.data.isPrefixOf s.data

/-- Modelled from the spec: numeric config values are parsed by
`String2Uint64`; the precise handling of malformed numerals (the source goes
through `sscanf`) is irrelevant to the claims, which never compare parsed
numbers. -/
def String2Uint64 (s : String) : Nat :=
  s.data.foldl (fun acc c => if c.isDigit then acc * 10 + (c.toNat - 48) else acc) 0

/-- A parsed `server.conf`: key/value pairs, first occurrence of a key wins
(stand-in for `SimpleOptionsParser`). -/
abbrev Config := List (String × String)

/-- Embedding of `SimpleOptionsParser::GetValue`: the value stored for a key,
or `none` when the key is absent. -/
def GetValue (cfg : Config) (key : String) : Option String :=
  (cfg.find? (fun kv => kv.1 == key)).map (fun kv => kv.2)

/-- The receiver parameters filled in by `GetParamsFromFile` (the `Params`
struct; its header with field defaults is not in the tree, so the caller's
initial record stands for the defaults). -/
structure Params where
  spooler_configuration : String
  hash_alg : String
  compression_alg : String
  generate_legacy_bulk_chunks : Bool
  use_file_chunking : Bool
  min_chunk_size : Nat
  avg_chunk_size : Nat
  max_chunk_size : Nat
  use_autocatalogs : Bool
  max_weight : Nat
  min_weight : Nat

/-- A caller-initialized `Params` record with empty/zero fields, used as a
concrete starting value. -/
def emptyParams : Params :=
  ⟨"", "", "", false, false, 0, 0, 0, false, 0, 0⟩

/-- Validation of a boolean config value as in params.cc: only the exact
strings true and false are accepted, anything else aborts the parse. -/
def pBool (v : String) : Option Bool :=
  if v = "true" then some true
  else if v = "false" then some false
  else none

/-- params.cc:89-97: the optional balancer weights; present keys overwrite the
fields, absent keys leave them untouched. -/
def stageWeights (cfg : Config) (st : Bool × Params) : Bool × Params :=
  let p1 := match GetValue cfg "CVMFS_AUTOCATALOGS_MAX_WEIGHT" with
    | some v => { st.2 with max_weight := String2Uint64 v }
    | none => st.2
  let p2 := match GetValue cfg "CVMFS_AUTOCATALOGS_MIN_WEIGHT" with
    | some v => { p1 with min_weight := String2Uint64 v }
    | none => p1
  (st.1, p2)

/-- params.cc:79-87: the `CVMFS_AUTOCATALOGS` boolean; a missing key folds
`false` into the accumulated result, a malformed value returns failure at
once. -/
def stageAutocatalogs (cfg : Config) (st : Bool × Params) : Bool × Params :=
  let v := GetValue cfg "CVMFS_AUTOCATALOGS"
  match pBool (v.getD "") with
  | none => (false, st.2)
  | some b => stageWeights cfg (st.1 && v.isSome, { st.2 with use_autocatalogs := b })

/-- params.cc:67-77: the three chunk-size keys; each missing key folds `false`
into the accumulated result. -/
def stageChunkSizes (cfg : Config) (st : Bool × Params) : Bool × Params :=
  let v1 := GetValue cfg "CVMFS_MIN_CHUNK_SIZE"
  let v2 := GetValue cfg "CVMFS_AVG_CHUNK_SIZE"
  let v3 := GetValue cfg "CVMFS_MAX_CHUNK_SIZE"
  stageAutocatalogs cfg
    (st.1 && v1.isSome && v2.isSome && v3.isSome,
     { st.2 with
        min_chunk_size := String2Uint64 (v1.getD "")
        avg_chunk_size := String2Uint64 (v2.getD "")
        max_chunk_size := String2Uint64 (v3.getD "") })

/-- params.cc:57-65: the `CVMFS_USE_FILE_CHUNKING` boolean. -/
def stageChunking (cfg : Config) (st : Bool × Params) : Bool × Params :=
  let v := GetValue cfg "CVMFS_USE_FILE_CHUNKING"
  match pBool (v.getD "") with
  | none => (false, st.2)
  | some b => stageChunkSizes cfg (st.1 && v.isSome, { st.2 with use_file_chunking := b })

/-- params.cc:46-55: the `CVMFS_GENERATE_LEGACY_BULK_CHUNKS` boolean. -/
def stageBulkChunks (cfg : Config) (st : Bool × Params) : Bool × Params :=
  let v := GetValue cfg "CVMFS_GENERATE_LEGACY_BULK_CHUNKS"
  match pBool (v.getD "") with
  | none => (false, st.2)
  | some b => stageChunking cfg (st.1 && v.isSome, { st.2 with generate_legacy_bulk_chunks := b })

/-- params.cc:36-44: the hash and compression algorithm keys; the enum parse
itself never fails in the source, so the raw strings are recorded. -/
def stageAlgorithms (cfg : Config) (st : Bool × Params) : Bool × Params :=
  let v1 := GetValue cfg "CVMFS_HASH_ALGORITHM"
  let v2 := GetValue cfg "CVMFS_COMPRESSION_ALGORITHM"
  stageBulkChunks cfg
    (st.1 && v1.isSome && v2.isSome,
     { st.2 with hash_alg := v1.getD "", compression_alg := v2.getD "" })

/-- Embedding of `GetParamsFromFile` (params.cc:14-100), with the parsed
config file standing for `TryParsePath`.  The upstream-storage key is read
first; a value with the `gw` prefix is rewritten to a local backend rooted at
`/srv/cvmfs/<rname>` where `<rname>` is the last path component of the
repository name; the remaining keys are read in source order. -/
def GetParamsFromFile (repo_name : String) (cfg : Config) (p0 : Params) :
    Bool × Params :=
  let v := GetValue cfg "CVMFS_UPSTREAM_STORAGE"
  let p1 := { p0 with spooler_configuration := v.getD p0.spooler_configuration }
  let p2 :=
    if strStartsWith p1.spooler_configuration "gw" then
      let rname := (SplitString repo_name '/').getLastD ""
      { p1 with spooler_configuration :=
          "local,/srv/cvmfs/" ++ rname ++ "/data/txn,/srv/cvmfs/" ++ rname }
    else p1
  stageAlgorithms cfg (v.isSome, p2)

/-- The characterization used in C9: every required key of params.cc is
present and every boolean key holds a literal true or false. -/
def requiredKeysOk (cfg : Config) : Bool :=
  (GetValue cfg "CVMFS_UPSTREAM_STORAGE").isSome &&
  (GetValue cfg "CVMFS_HASH_ALGORITHM").isSome &&
  (GetValue cfg "CVMFS_COMPRESSION_ALGORITHM").isSome &&
  (pBool ((GetValue cfg "CVMFS_GENERATE_LEGACY_BULK_CHUNKS").getD "")).isSome &&
  (pBool ((GetValue cfg "CVMFS_USE_FILE_CHUNKING").getD "")).isSome &&
  (GetValue cfg "CVMFS_MIN_CHUNK_SIZE").isSome &&
  (GetValue cfg "CVMFS_AVG_CHUNK_SIZE").isSome &&
  (GetValue cfg "CVMFS_MAX_CHUNK_SIZE").isSome &&
  (pBool ((GetValue cfg "CVMFS_AUTOCATALOGS").getD "")).isSome

/-- A concrete complete `server.conf` with every required key and neither of
the optional balancer-weight keys. -/
def fullConfig : Config :=
  [("CVMFS_UPSTREAM_STORAGE", "local,/srv/cvmfs/t/data/txn,/srv/cvmfs/t"),
   ("CVMFS_HASH_ALGORITHM", "sha1"),
   ("CVMFS_COMPRESSION_ALGORITHM", "zlib"),
   ("CVMFS_GENERATE_LEGACY_BULK_CHUNKS", "false"),
   ("CVMFS_USE_FILE_CHUNKING", "true"),
   ("CVMFS_MIN_CHUNK_SIZE", "4194304"),
   ("CVMFS_AVG_CHUNK_SIZE", "8388608"),
   ("CVMFS_MAX_CHUNK_SIZE", "16777216"),
   ("CVMFS_AUTOCATALOGS", "false")]


end receiver

namespace history

/-- Modelled from the spec: the tag update channels of the history store
(`History::UpdateChannel`; the history implementation itself is not in the
tree, only its unit tests). -/
inductive UpdateChannel
  | kChannelTrunk
  | kChannelDevel
  | kChannelTest
  | kChannelProd
deriving DecidableEq

/-- Modelled from the spec: a history tag (`History::Tag`) with name,
root hash (abstracted to a number), size, revision, timestamp, channel and
description. -/
structure Tag where
  name : String
  root_hash : Nat
  size : Nat
  revision : Nat
  timestamp : Nat
  channel : UpdateChannel
  description : String
deriving DecidableEq

/-- Modelled from the spec: the stored tag list of a history database, in
insertion order. -/
abbrev History := List Tag

/-- Modelled from the spec: `History::Exists(name)`. -/
def Exists (h : History) (n : String) : Bool :=
  h.any fun t => t.name == n

/-- Modelled from the spec: `History::GetByName(name)`; names are unique in a
well-formed store, so the first match is the tag. -/
def GetByName (h : History) (n : String) : Option Tag :=
  h.find? fun t => t.name == n

/-- The later of two tags by timestamp (ties keep the first). -/
def laterTag (a b : Tag) : Tag :=
  if a.timestamp < b.timestamp then b else a

/-- Modelled from the spec: `History::GetByDate(t)` returns the tag with the
greatest timestamp less than or equal to `t`, or fails if there is none. -/
def GetByDate (h : History) (ts : Nat) : Option Tag :=
  match h.filter (fun t => decide (t.timestamp ≤ ts)) with
  | [] => none
  | t :: rest => some (rest.foldl laterTag t)

/-- Descending-revision order on tags (non-strict, ties unconstrained). -/
def revGE (a b : Tag) : Prop :=
  b.revision ≤ a.revision

instance : DecidableRel revGE :=
  fun a b => inferInstanceAs (Decidable (b.revision ≤ a.revision))

instance : IsTotal Tag revGE :=
  ⟨fun a b => Nat.le_total b.revision a.revision⟩

instance : IsTrans Tag revGE :=
  ⟨fun _ _ _ hab hbc => Nat.le_trans hbc hab⟩

/-- Modelled from the spec's concrete rollback scenario and the unit test
(t_history.cc:648-684, 741-789): a tag is affected by a rollback to `target`
when it lives on the target's channel with a revision strictly greater than
the target's, or it is the target tag itself (tags merely sharing the
target's revision under another name, such as `moep_duplicate`, are kept). -/
def affectedPred (target x : Tag) : Bool :=
  (x.channel == target.channel && decide (target.revision < x.revision))
  || x.name == target.name

/-- Modelled from the spec: `History::ListTagsAffectedByRollback(name)` fails
for an unknown name and otherwise returns the affected tags ordered by
descending revision. -/
def ListTagsAffectedByRollback (h : History) (n : String) : Option (List Tag) :=
  (GetByName h n).map fun target =>
    List.insertionSort revGE (h.filter (affectedPred target))

/-- The greatest revision among the tags affected by a rollback to `target`
(the target itself is affected, so this is at least the target's revision
when the target is stored). -/
def maxAffectedRevision (h : History) (target : Tag) : Nat :=
  (h.filter (affectedPred target)).foldl (fun m x => max m x.revision) 0

/-- Modelled from the spec: `History::Rollback(new_tag)` looks the target up
by the new tag's name (failing for an unknown name, which is how a renamed
tag is rejected), requires the new revision to exceed every affected
revision, then deletes the affected tags and inserts the new tag.  The `Bool`
component is the success flag; on failure the store is returned unchanged. -/
def Rollback (h : History) (new_tag : Tag) : Bool × History :=
  match GetByName h new_tag.name with
  | none => (false, h)
  | some target =>
    if maxAffectedRevision h target < new_tag.revision then
      (true, h.filter (fun x => !(affectedPred target x)) ++ [new_tag])
    else (false, h)

/-- A tag as built by the unit tests' `GetDummyTag` helper: size 1337 and a
fixed description, with name, hash, revision, channel and timestamp free. -/
def dummyTag (n : String) (hash rev : Nat) (c : UpdateChannel) (ts : Nat) : Tag :=
  ⟨n, hash, 1337, rev, ts, c, "This is just a small dummy"⟩

/-- The five-tag store of the `GetTagByDate` unit test, in insertion order. -/
def dateStore : History :=
  [dummyTag "f1" 101 5 UpdateChannel.kChannelTest 1415036511,
   dummyTag "f2" 102 4 UpdateChannel.kChannelTest 1414950111,
   dummyTag "f3" 103 3 UpdateChannel.kChannelTest 1414863711,
   dummyTag "f4" 104 2 UpdateChannel.kChannelTest 1414777311,
   dummyTag "f5" 105 1 UpdateChannel.kChannelTest 1414690911]

/-- The store of the `RollbackToOldTag` unit test, in insertion order. -/
def rollbackStore : History :=
  [dummyTag "foo" 1 1 UpdateChannel.kChannelTest 564993000,
   dummyTag "bar" 2 2 UpdateChannel.kChannelTest 564993000,
   dummyTag "first_release" 3 3 UpdateChannel.kChannelProd 564993000,
   dummyTag "moep" 4 4 UpdateChannel.kChannelTest 564993000,
   dummyTag "moep_duplicate" 5 4 UpdateChannel.kChannelTest 564993000,
   dummyTag "lol" 6 5 UpdateChannel.kChannelTest 564993000,
   dummyTag "second_release" 7 6 UpdateChannel.kChannelProd 564993000,
   dummyTag "third_release" 8 7 UpdateChannel.kChannelProd 564993000,
   dummyTag "rofl" 9 8 UpdateChannel.kChannelTest 564993000,
   dummyTag "also_rofl" 10 8 UpdateChannel.kChannelTest 564993000,
   dummyTag "forth_release" 11 9 UpdateChannel.kChannelProd 564993000]

/-- The rollback target used by the unit test: `moep` rewritten to revision 10
with a fresh root hash. -/
def moepNew : Tag :=
  dummyTag "moep" 12 10 UpdateChannel.kChannelTest 564993000

/-- The stored tag `moep` of the unit-test store. -/
def moepTag : Tag :=
  dummyTag "moep" 4 4 UpdateChannel.kChannelTest 564993000

/-- The stored tag `moep_duplicate` of the unit-test store: same channel and
revision as `moep`, different name. -/
def moepDuplicateTag : Tag :=
  dummyTag "moep_duplicate" 5 4 UpdateChannel.kChannelTest 564993000

/-- The affected-tag listing for `moep` on the unit-test store, as the test
asserts it (four tags, `moep_duplicate` excluded). -/
def affectedMoepList : List Tag :=
  [dummyTag "rofl" 9 8 UpdateChannel.kChannelTest 564993000,
   dummyTag "also_rofl" 10 8 UpdateChannel.kChannelTest 564993000,
   dummyTag "lol" 6 5 UpdateChannel.kChannelTest 564993000,
   moepTag]


end history

namespace upload

/-- The upload state of one `TemporaryFileChunk`
(upload_file_processor.h:22-26). -/
inductive UploadState
  | kUploadPending
  | kUploadSuccessful
  | kUploadFailed
deriving DecidableEq

/-- The bookkeeping state of a `PendingFile`
(upload_file_processor.h:59-123): the upload states of the registered chunks
(in registration order, the whole-file bulk artifact counted like any other
registered upload), the two counters and the two completion flags. -/
structure PendingFileState where
  file_chunks : List UploadState
  chunks_uploaded : Nat
  errors : Nat
  processing_complete : Bool
  uploading_complete : Bool
deriving DecidableEq

/-- A freshly constructed `PendingFile`: no chunks, zero counters, both flags
down (the constructor at upload_file_processor.h:65-70). -/
def initialPendingFile : PendingFileState :=
  ⟨[], 0, 0, false, false⟩

/-- Embedding of `PendingFile::IsCompleted` (upload_file_processor.h:108). -/
def IsCompleted (s : PendingFileState) : Bool :=
  s.processing_complete && s.uploading_complete

/-- Embedding of `PendingFile::IsCompletedSuccessfully`
(upload_file_processor.h:109). -/
def IsCompletedSuccessfully (s : PendingFileState) : Bool :=
  IsCompleted s && (s.errors == 0)

/-- Modelled from the spec: `PendingFile::AddChunk` registers one chunk in
state pending (the method body is not in the tree). -/
def AddChunk (s : PendingFileState) : PendingFileState :=
  { s with file_chunks := s.file_chunks ++ [UploadState.kUploadPending] }

/-- Modelled from the spec: `PendingFile::FinalizeProcessing` raises the
processing-complete flag (the method body is not in the tree). -/
def FinalizeProcessing (s : PendingFileState) : PendingFileState :=
  { s with processing_complete := true }

/-- Modelled from the spec: `PendingFile::UploadCallback` transitions the
`i`-th registered chunk to success or failure, increments `chunks_uploaded`,
accumulates errors, and raises `uploading_complete` once the number of
terminated uploads reaches the number of registered chunks (the method body
is not in the tree). -/
def UploadCallback (s : PendingFileState) (i : Nat) (ok : Bool) : PendingFileState :=
  { s with
    file_chunks := s.file_chunks.set i
      (if ok then UploadState.kUploadSuccessful else UploadState.kUploadFailed)
    chunks_uploaded := s.chunks_uploaded + 1
    errors := s.errors + (if ok then 0 else 1)
    uploading_complete := s.uploading_complete
      || (s.chunks_uploaded + 1 == s.file_chunks.length) }

/-- Modelled from the spec: the `PendingFile` states arising in a processing
job.  Chunks are registered while processing is still incomplete and before
any upload has terminated (the processor registers all chunks, then submits
the upload jobs, then calls `FinalizeProcessing`); an upload callback fires
exactly once per registered chunk, in any order relative to the finalize
call. -/
inductive Reachable : PendingFileState → Prop
  | init : Reachable initialPendingFile
  | add {s} : Reachable s → s.processing_complete = false →
      s.chunks_uploaded = 0 → Reachable (AddChunk s)
  | fin {s} : Reachable s → Reachable (FinalizeProcessing s)
  | callback {s i ok} : Reachable s →
      s.file_chunks[i]? = some UploadState.kUploadPending →
      Reachable (UploadCallback s i ok)

/-- A chunk whose upload has terminated. -/
def nonPending : UploadState → Bool
  | UploadState.kUploadPending => false
  | UploadState.kUploadSuccessful => true
  | UploadState.kUploadFailed => true

/-- A chunk whose upload failed. -/
def isFailed : UploadState → Bool
  | UploadState.kUploadFailed => true
  | UploadState.kUploadPending => false
  | UploadState.kUploadSuccessful => false

/-- A chunk whose upload succeeded. -/
def isSuccessful : UploadState → Bool
  | UploadState.kUploadSuccessful => true
  | UploadState.kUploadPending => false
  | UploadState.kUploadFailed => false

/-- The concrete single-chunk run used as the C5 witness: one chunk is
registered, processing finalizes, the upload succeeds. -/
def demoPendingFile : PendingFileState :=
  UploadCallback (FinalizeProcessing (AddChunk initialPendingFile)) 0 true


end upload

namespace receiver

lemma word32_leBytes32 {n : Nat} (h : n < 4294967296) :
    word32 (n % 256) (n / 256 % 256) (n / 65536 % 256) (n / 16777216 % 256) = n := by
  unfold word32
  omega

lemma asInt32_emod (i : Int) (h1 : -2147483648 ≤ i) (h2 : i < 2147483648) :
    asInt32 ((i % 4294967296).toNat) = i := by
  unfold asInt32
  split <;> omega

lemma readInt32_encode (i : Int) (h1 : -2147483648 ≤ i) (h2 : i < 2147483648)
    (rest : List Nat) :
    readInt32 (encodeInt32 i ++ rest) = some (i, rest) := by
  have hlt : (i % 4294967296).toNat < 4294967296 := by omega
  simp only [encodeInt32, leBytes32, List.cons_append, List.nil_append, readInt32]
  rw [word32_leBytes32 hlt, asInt32_emod i h1 h2]

lemma readInt32_encode_self (i : Int) (h1 : -2147483648 ≤ i) (h2 : i < 2147483648) :
    readInt32 (encodeInt32 i) = some (i, []) := by
  have h := readInt32_encode i h1 h2 []
  rwa [List.append_nil] at h

lemma readBytes_exact (data rest : List Nat) :
    readBytes (data ++ rest) data.length = some (data, rest) := by
  unfold readBytes
  rw [if_pos (by simp), List.take_left, List.drop_left]

lemma readBytes_all (data : List Nat) : readBytes data data.length = some (data, []) := by
  have h := readBytes_exact data []
  rwa [List.append_nil] at h

/-- C2 (counterexample): a frame with request id `kEcho` and `msg_size = 0` is
not read back as `kEcho`; `Reactor::ReadRequest` returns `kQuit` for every
zero-body frame, so the claim that a zero-body command is dispatched as the
command named in the frame's first field is false. -/
theorem readRequest_zero_body_cex :
    ReadRequest (WriteRequest kEcho []) = (kQuit, []) ∧ kQuit ≠ kEcho := by
  exact ⟨by decide, by decide⟩

/-- C2 (amended): for a well-formed frame whose request id is in `int32_t`
range and is not the error sentinel, `Reactor::ReadRequest` returns `kQuit`
(ignoring the request id) whenever the frame body is empty, and returns the
request id together with the body bytes whenever the body is non-empty and its
size fits in `int32_t`. -/
theorem readRequest_frames (req : Int) (data : List Nat)
    (hlo : -2147483648 ≤ req) (hhi : req < 2147483648) (hne : req ≠ kError) :
    (data = [] → ReadRequest (WriteRequest req data) = (kQuit, []))
    ∧ (0 < data.length → (data.length : Int) < 2147483648 →
        ReadRequest (WriteRequest req data) = (req, data)) := by
  constructor
  · intro hd
    subst hd
    simp only [WriteRequest, ReadRequest, List.length_nil, Nat.cast_zero,
      List.append_nil]
    simp only [readInt32_encode req hlo hhi]
    simp only [readInt32_encode_self 0 (by omega) (by omega)]
    simp only [if_neg hne, if_neg (lt_irrefl (0 : Int))]
  · intro hpos hsize
    simp only [WriteRequest, ReadRequest, List.append_assoc]
    simp only [readInt32_encode req hlo hhi]
    simp only [readInt32_encode ((data.length : Nat) : Int) (by omega) hsize]
    simp only [if_neg hne,
      if_pos (show (0 : Int) < (data.length : Int) by exact_mod_cast hpos)]
    simp only [Int.toNat_natCast, readBytes_all data]

/-- C2 witness: the amended statement evaluated at a concrete frame. -/
theorem readRequest_frames_witness :
    ReadRequest (WriteRequest kGenerateToken [1, 2, 3]) = (kGenerateToken, [1, 2, 3]) :=
  (readRequest_frames kGenerateToken [1, 2, 3] (by decide) (by decide)
    (by decide)).2 (by decide) (by decide)

/-- C10: reply framing round-trips.  For every byte string whose length fits
in a signed 32-bit integer, reading the bytes produced by
`Reactor::WriteReply` with `Reactor::ReadReply` succeeds and yields exactly
the written data. -/
theorem reply_roundtrip (data : List Nat) (h : data.length < 2147483648) :
    ReadReply (WriteReply data) = some data := by
  simp only [WriteReply, ReadReply]
  simp only [readInt32_encode ((data.length : Nat) : Int) (by omega)
    (by exact_mod_cast h)]
  simp only [if_neg (show ¬((data.length : Nat) : Int) < 0 by omega)]
  simp only [Int.toNat_natCast, readBytes_all data]

/-- C10 witness: the round-trip at a concrete reply body. -/
theorem reply_roundtrip_witness :
    ReadReply (WriteReply [10, 20, 30]) = some [10, 20, 30] :=
  reply_roundtrip [10, 20, 30] (by decide)

/-- C4 (counterexample): `Reactor::HandleCheckToken` classifies a negative
`CheckToken` return value as success, not as `invalid_token`, because the
source tests `ret > 0`; the claim that every nonzero value other than 10
yields `invalid_token` is false at `ret = -1`. -/
theorem handleCheckToken_negative_cex :
    HandleCheckTokenReply (-1) "/lease" = [("status", "ok"), ("path", "/lease")]
    ∧ HandleCheckTokenReply (-1) "/lease"
        ≠ [("status", "error"), ("reason", "invalid_token")] := by
  exact ⟨by decide, by decide⟩

/-- C4 (amended): the reply of `Reactor::HandleCheckToken` is the
`expired_token` error when `CheckToken` returns 10, the `invalid_token` error
when it returns any other positive value, and the ok reply carrying the lease
path when it returns zero or any negative value. -/
theorem handleCheckToken_reply (ret : Int) (p : String) :
    (ret = 10 →
      HandleCheckTokenReply ret p = [("status", "error"), ("reason", "expired_token")])
    ∧ (0 < ret → ret ≠ 10 →
      HandleCheckTokenReply ret p = [("status", "error"), ("reason", "invalid_token")])
    ∧ (ret ≤ 0 →
      HandleCheckTokenReply ret p = [("status", "ok"), ("path", p)]) := by
  refine ⟨fun h10 => ?_, fun hpos hne => ?_, fun hle => ?_⟩
  · unfold HandleCheckTokenReply
    rw [if_pos h10]
  · unfold HandleCheckTokenReply
    rw [if_neg hne, if_pos hpos]
  · unfold HandleCheckTokenReply
    rw [if_neg (by omega), if_neg (by omega)]

/-- C4 witness: the three reply classes at concrete return values. -/
theorem handleCheckToken_reply_witness :
    HandleCheckTokenReply 10 "/a" = [("status", "error"), ("reason", "expired_token")]
    ∧ HandleCheckTokenReply 3 "/a" = [("status", "error"), ("reason", "invalid_token")]
    ∧ HandleCheckTokenReply 0 "/a" = [("status", "ok"), ("path", "/a")] :=
  ⟨(handleCheckToken_reply 10 "/a").1 rfl,
   (handleCheckToken_reply 3 "/a").2.1 (by decide) (by decide),
   (handleCheckToken_reply 0 "/a").2.2 (by decide)⟩
lemma pBool_isSome_getD {v : Option String} {b : Bool}
    (h : pBool (v.getD "") = some b) : v.isSome = true := by
  cases v with
  | some s => rfl
  | none =>
    rw [Option.getD_none, show pBool "" = (none : Option Bool) from by decide] at h
    simp at h

lemma stageWeights_fst (cfg : Config) (st : Bool × Params) :
    (stageWeights cfg st).1 = st.1 := rfl

lemma stageAutocatalogs_fst (cfg : Config) (st : Bool × Params) :
    (stageAutocatalogs cfg st).1 =
      (st.1 && (pBool ((GetValue cfg "CVMFS_AUTOCATALOGS").getD "")).isSome) := by
  unfold stageAutocatalogs
  cases hb : pBool ((GetValue cfg "CVMFS_AUTOCATALOGS").getD "") with
  | none => simp [hb]
  | some b => simp [hb, stageWeights_fst, pBool_isSome_getD hb]

lemma stageChunkSizes_fst (cfg : Config) (st : Bool × Params) :
    (stageChunkSizes cfg st).1 =
      (st.1 && (GetValue cfg "CVMFS_MIN_CHUNK_SIZE").isSome
            && (GetValue cfg "CVMFS_AVG_CHUNK_SIZE").isSome
            && (GetValue cfg "CVMFS_MAX_CHUNK_SIZE").isSome
            && (pBool ((GetValue cfg "CVMFS_AUTOCATALOGS").getD "")).isSome) := by
  unfold stageChunkSizes
  rw [stageAutocatalogs_fst]

lemma stageChunking_fst (cfg : Config) (st : Bool × Params) :
    (stageChunking cfg st).1 =
      (st.1 && (pBool ((GetValue cfg "CVMFS_USE_FILE_CHUNKING").getD "")).isSome
            && (GetValue cfg "CVMFS_MIN_CHUNK_SIZE").isSome
            && (GetValue cfg "CVMFS_AVG_CHUNK_SIZE").isSome
            && (GetValue cfg "CVMFS_MAX_CHUNK_SIZE").isSome
            && (pBool ((GetValue cfg "CVMFS_AUTOCATALOGS").getD "")).isSome) := by
  unfold stageChunking
  cases hb : pBool ((GetValue cfg "CVMFS_USE_FILE_CHUNKING").getD "") with
  | none => simp [hb]
  | some b =>
    simp [hb, stageChunkSizes_fst, pBool_isSome_getD hb, Bool.and_assoc]

lemma stageBulkChunks_fst (cfg : Config) (st : Bool × Params) :
    (stageBulkChunks cfg st).1 =
      (st.1 && (pBool ((GetValue cfg "CVMFS_GENERATE_LEGACY_BULK_CHUNKS").getD "")).isSome
            && (pBool ((GetValue cfg "CVMFS_USE_FILE_CHUNKING").getD "")).isSome
            && (GetValue cfg "CVMFS_MIN_CHUNK_SIZE").isSome
            && (GetValue cfg "CVMFS_AVG_CHUNK_SIZE").isSome
            && (GetValue cfg "CVMFS_MAX_CHUNK_SIZE").isSome
            && (pBool ((GetValue cfg "CVMFS_AUTOCATALOGS").getD "")).isSome) := by
  unfold stageBulkChunks
  cases hb : pBool ((GetValue cfg "CVMFS_GENERATE_LEGACY_BULK_CHUNKS").getD "") with
  | none => simp [hb]
  | some b =>
    simp [hb, stageChunking_fst, pBool_isSome_getD hb, Bool.and_assoc]

lemma stageAlgorithms_fst (cfg : Config) (st : Bool × Params) :
    (stageAlgorithms cfg st).1 =
      (st.1 && (GetValue cfg "CVMFS_HASH_ALGORITHM").isSome
            && (GetValue cfg "CVMFS_COMPRESSION_ALGORITHM").isSome
            && (pBool ((GetValue cfg "CVMFS_GENERATE_LEGACY_BULK_CHUNKS").getD "")).isSome
            && (pBool ((GetValue cfg "CVMFS_USE_FILE_CHUNKING").getD "")).isSome
            && (GetValue cfg "CVMFS_MIN_CHUNK_SIZE").isSome
            && (GetValue cfg "CVMFS_AVG_CHUNK_SIZE").isSome
            && (GetValue cfg "CVMFS_MAX_CHUNK_SIZE").isSome
            && (pBool ((GetValue cfg "CVMFS_AUTOCATALOGS").getD "")).isSome) := by
  unfold stageAlgorithms
  rw [stageBulkChunks_fst]

lemma stageWeights_snd_spooler (cfg : Config) (st : Bool × Params) :
    (stageWeights cfg st).2.spooler_configuration = st.2.spooler_configuration := by
  cases h1 : GetValue cfg "CVMFS_AUTOCATALOGS_MAX_WEIGHT" <;>
    cases h2 : GetValue cfg "CVMFS_AUTOCATALOGS_MIN_WEIGHT" <;>
      simp [stageWeights, h1, h2]

lemma stageAutocatalogs_snd_spooler (cfg : Config) (st : Bool × Params) :
    (stageAutocatalogs cfg st).2.spooler_configuration = st.2.spooler_configuration := by
  cases hb : pBool ((GetValue cfg "CVMFS_AUTOCATALOGS").getD "") <;>
    simp [stageAutocatalogs, hb, stageWeights_snd_spooler]

lemma stageChunkSizes_snd_spooler (cfg : Config) (st : Bool × Params) :
    (stageChunkSizes cfg st).2.spooler_configuration = st.2.spooler_configuration := by
  simp [stageChunkSizes, stageAutocatalogs_snd_spooler]

lemma stageChunking_snd_spooler (cfg : Config) (st : Bool × Params) :
    (stageChunking cfg st).2.spooler_configuration = st.2.spooler_configuration := by
  cases hb : pBool ((GetValue cfg "CVMFS_USE_FILE_CHUNKING").getD "") <;>
    simp [stageChunking, hb, stageChunkSizes_snd_spooler]

lemma stageBulkChunks_snd_spooler (cfg : Config) (st : Bool × Params) :
    (stageBulkChunks cfg st).2.spooler_configuration = st.2.spooler_configuration := by
  cases hb : pBool ((GetValue cfg "CVMFS_GENERATE_LEGACY_BULK_CHUNKS").getD "") <;>
    simp [stageBulkChunks, hb, stageChunking_snd_spooler]

lemma stageAlgorithms_snd_spooler (cfg : Config) (st : Bool × Params) :
    (stageAlgorithms cfg st).2.spooler_configuration = st.2.spooler_configuration := by
  simp [stageAlgorithms, stageBulkChunks_snd_spooler]

lemma stageWeights_snd_max (cfg : Config)
    (h : GetValue cfg "CVMFS_AUTOCATALOGS_MAX_WEIGHT" = none) (st : Bool × Params) :
    (stageWeights cfg st).2.max_weight = st.2.max_weight := by
  cases h2 : GetValue cfg "CVMFS_AUTOCATALOGS_MIN_WEIGHT" <;>
    simp [stageWeights, h, h2]

lemma stageWeights_snd_min (cfg : Config)
    (h : GetValue cfg "CVMFS_AUTOCATALOGS_MIN_WEIGHT" = none) (st : Bool × Params) :
    (stageWeights cfg st).2.min_weight = st.2.min_weight := by
  cases h1 : GetValue cfg "CVMFS_AUTOCATALOGS_MAX_WEIGHT" <;>
    simp [stageWeights, h1, h]

lemma stageAutocatalogs_snd_max (cfg : Config)
    (h : GetValue cfg "CVMFS_AUTOCATALOGS_MAX_WEIGHT" = none) (st : Bool × Params) :
    (stageAutocatalogs cfg st).2.max_weight = st.2.max_weight := by
  cases hb : pBool ((GetValue cfg "CVMFS_AUTOCATALOGS").getD "") <;>
    simp [stageAutocatalogs, hb, stageWeights_snd_max cfg h]

lemma stageAutocatalogs_snd_min (cfg : Config)
    (h : GetValue cfg "CVMFS_AUTOCATALOGS_MIN_WEIGHT" = none) (st : Bool × Params) :
    (stageAutocatalogs cfg st).2.min_weight = st.2.min_weight := by
  cases hb : pBool ((GetValue cfg "CVMFS_AUTOCATALOGS").getD "") <;>
    simp [stageAutocatalogs, hb, stageWeights_snd_min cfg h]

lemma stageChunkSizes_snd_max (cfg : Config)
    (h : GetValue cfg "CVMFS_AUTOCATALOGS_MAX_WEIGHT" = none) (st : Bool × Params) :
    (stageChunkSizes cfg st).2.max_weight = st.2.max_weight := by
  simp [stageChunkSizes, stageAutocatalogs_snd_max cfg h]

lemma stageChunkSizes_snd_min (cfg : Config)
    (h : GetValue cfg "CVMFS_AUTOCATALOGS_MIN_WEIGHT" = none) (st : Bool × Params) :
    (stageChunkSizes cfg st).2.min_weight = st.2.min_weight := by
  simp [stageChunkSizes, stageAutocatalogs_snd_min cfg h]

lemma stageChunking_snd_max (cfg : Config)
    (h : GetValue cfg "CVMFS_AUTOCATALOGS_MAX_WEIGHT" = none) (st : Bool × Params) :
    (stageChunking cfg st).2.max_weight = st.2.max_weight := by
  cases hb : pBool ((GetValue cfg "CVMFS_USE_FILE_CHUNKING").getD "") <;>
    simp [stageChunking, hb, stageChunkSizes_snd_max cfg h]

lemma stageChunking_snd_min (cfg : Config)
    (h : GetValue cfg "CVMFS_AUTOCATALOGS_MIN_WEIGHT" = none) (st : Bool × Params) :
    (stageChunking cfg st).2.min_weight = st.2.min_weight := by
  cases hb : pBool ((GetValue cfg "CVMFS_USE_FILE_CHUNKING").getD "") <;>
    simp [stageChunking, hb, stageChunkSizes_snd_min cfg h]

lemma stageBulkChunks_snd_max (cfg : Config)
    (h : GetValue cfg "CVMFS_AUTOCATALOGS_MAX_WEIGHT" = none) (st : Bool × Params) :
    (stageBulkChunks cfg st).2.max_weight = st.2.max_weight := by
  cases hb : pBool ((GetValue cfg "CVMFS_GENERATE_LEGACY_BULK_CHUNKS").getD "") <;>
    simp [stageBulkChunks, hb, stageChunking_snd_max cfg h]

lemma stageBulkChunks_snd_min (cfg : Config)
    (h : GetValue cfg "CVMFS_AUTOCATALOGS_MIN_WEIGHT" = none) (st : Bool × Params) :
    (stageBulkChunks cfg st).2.min_weight = st.2.min_weight := by
  cases hb : pBool ((GetValue cfg "CVMFS_GENERATE_LEGACY_BULK_CHUNKS").getD "") <;>
    simp [stageBulkChunks, hb, stageChunking_snd_min cfg h]

lemma stageAlgorithms_snd_max (cfg : Config)
    (h : GetValue cfg "CVMFS_AUTOCATALOGS_MAX_WEIGHT" = none) (st : Bool × Params) :
    (stageAlgorithms cfg st).2.max_weight = st.2.max_weight := by
  simp [stageAlgorithms, stageBulkChunks_snd_max cfg h]

lemma stageAlgorithms_snd_min (cfg : Config)
    (h : GetValue cfg "CVMFS_AUTOCATALOGS_MIN_WEIGHT" = none) (st : Bool × Params) :
    (stageAlgorithms cfg st).2.min_weight = st.2.min_weight := by
  simp [stageAlgorithms, stageBulkChunks_snd_min cfg h]

/-- C8: when `CVMFS_UPSTREAM_STORAGE` starts with `gw`, `GetParamsFromFile`
rewrites the spooler configuration to the local backend rooted at
`/srv/cvmfs/<rname>`, `<rname>` being the last slash-separated component of
the repository name; otherwise the configured value is kept verbatim. -/
theorem getParamsFromFile_gw_rewrite (repo_name : String) (cfg : Config)
    (p0 : Params) (v : String)
    (hv : GetValue cfg "CVMFS_UPSTREAM_STORAGE" = some v) :
    (strStartsWith v "gw" = true →
      (GetParamsFromFile repo_name cfg p0).2.spooler_configuration =
        "local,/srv/cvmfs/" ++ (SplitString repo_name '/').getLastD "" ++
          "/data/txn,/srv/cvmfs/" ++ (SplitString repo_name '/').getLastD "")
    ∧ (strStartsWith v "gw" = false →
      (GetParamsFromFile repo_name cfg p0).2.spooler_configuration = v) := by
  unfold GetParamsFromFile
  rw [hv]
  constructor
  · intro hgw
    rw [stageAlgorithms_snd_spooler]
    simp [hgw]
  · intro hgw
    rw [stageAlgorithms_snd_spooler]
    simp [hgw]

/-- C8 witness: the rewrite evaluated at a concrete gateway configuration. -/
theorem getParamsFromFile_gw_rewrite_witness :
    (GetParamsFromFile "test.repo.org"
        [("CVMFS_UPSTREAM_STORAGE", "gw,http://gateway:4929/api/v1")]
        emptyParams).2.spooler_configuration =
      "local,/srv/cvmfs/test.repo.org/data/txn,/srv/cvmfs/test.repo.org" := by
  have h := (getParamsFromFile_gw_rewrite "test.repo.org"
      [("CVMFS_UPSTREAM_STORAGE", "gw,http://gateway:4929/api/v1")]
      emptyParams "gw,http://gateway:4929/api/v1" (by decide)).1 (by decide)
  rw [h]
  decide

/-- C9: `GetParamsFromFile` succeeds exactly when every required key is
present and every boolean key is a literal true or false; the two optional
balancer-weight keys may be absent without causing failure, in which case the
weight fields keep their caller-supplied values. -/
theorem getParamsFromFile_required_keys (repo_name : String) (cfg : Config)
    (p0 : Params) :
    ((GetParamsFromFile repo_name cfg p0).1 = requiredKeysOk cfg)
    ∧ (GetValue cfg "CVMFS_AUTOCATALOGS_MAX_WEIGHT" = none →
        (GetParamsFromFile repo_name cfg p0).2.max_weight = p0.max_weight)
    ∧ (GetValue cfg "CVMFS_AUTOCATALOGS_MIN_WEIGHT" = none →
        (GetParamsFromFile repo_name cfg p0).2.min_weight = p0.min_weight) := by
  refine ⟨?_, fun hmax => ?_, fun hmin => ?_⟩
  · simp only [GetParamsFromFile]
    rw [stageAlgorithms_fst]
    rfl
  · simp only [GetParamsFromFile]
    rw [stageAlgorithms_snd_max cfg hmax]
    split <;> rfl
  · simp only [GetParamsFromFile]
    rw [stageAlgorithms_snd_min cfg hmin]
    split <;> rfl

/-- C9 witness: a complete config without the optional weight keys parses
successfully and keeps the caller-supplied weights. -/
theorem getParamsFromFile_required_keys_witness :
    (GetParamsFromFile "test.repo.org" fullConfig emptyParams).1 = true
    ∧ (GetParamsFromFile "test.repo.org" fullConfig emptyParams).2.max_weight =
        emptyParams.max_weight
    ∧ (GetParamsFromFile "test.repo.org" fullConfig emptyParams).2.min_weight =
        emptyParams.min_weight := by
  refine ⟨?_, ?_, ?_⟩
  · rw [(getParamsFromFile_required_keys "test.repo.org" fullConfig emptyParams).1]
    decide
  · exact (getParamsFromFile_required_keys "test.repo.org" fullConfig
      emptyParams).2.1 (by decide)
  · exact (getParamsFromFile_required_keys "test.repo.org" fullConfig
      emptyParams).2.2 (by decide)

end receiver

namespace history

lemma laterTag_timestamp_left (a b : Tag) :
    a.timestamp ≤ (laterTag a b).timestamp := by
  unfold laterTag
  split <;> omega

lemma laterTag_timestamp_right (a b : Tag) :
    b.timestamp ≤ (laterTag a b).timestamp := by
  unfold laterTag
  split <;> omega

lemma laterTag_mem (a b : Tag) : laterTag a b = a ∨ laterTag a b = b := by
  unfold laterTag
  split
  · exact Or.inr rfl
  · exact Or.inl rfl

lemma foldl_laterTag_mem (l : List Tag) (a : Tag) :
    l.foldl laterTag a = a ∨ l.foldl laterTag a ∈ l := by
  induction l generalizing a with
  | nil => exact Or.inl rfl
  | cons x xs ih =>
    simp only [List.foldl_cons]
    rcases ih (laterTag a x) with h | h
    · rcases laterTag_mem a x with h2 | h2
      · exact Or.inl (h.trans h2)
      · exact Or.inr (by rw [h, h2]; exact List.mem_cons_self x xs)
    · exact Or.inr (List.mem_cons_of_mem x h)

lemma foldl_laterTag_le (l : List Tag) (a : Tag) :
    a.timestamp ≤ (l.foldl laterTag a).timestamp ∧
    ∀ x ∈ l, x.timestamp ≤ (l.foldl laterTag a).timestamp := by
  induction l generalizing a with
  | nil => exact ⟨Nat.le_refl _, by simp⟩
  | cons x xs ih =>
    simp only [List.foldl_cons]
    obtain ⟨h1, h2⟩ := ih (laterTag a x)
    refine ⟨Nat.le_trans (laterTag_timestamp_left a x) h1, ?_⟩
    intro y hy
    rcases List.mem_cons.mp hy with rfl | hy
    · exact Nat.le_trans (laterTag_timestamp_right a y) h1
    · exact h2 y hy

/-- C6: `GetByDate` returns a stored tag with the greatest timestamp not
exceeding the query time (inclusive on equality) and fails exactly when no
stored tag is old enough; on the five concrete timestamps of the unit test it
fails before the first tag, returns `f4` at `f4`'s own timestamp, and returns
`f1` after the last tag. -/
theorem getByDate_spec :
    (∀ (h : History) (ts : Nat),
      (GetByDate h ts = none ↔ ∀ x ∈ h, ¬(x.timestamp ≤ ts))
      ∧ (∀ r, GetByDate h ts = some r →
          r ∈ h ∧ r.timestamp ≤ ts ∧
          ∀ x ∈ h, x.timestamp ≤ ts → x.timestamp ≤ r.timestamp))
    ∧ GetByDate dateStore 1414255311 = none
    ∧ GetByDate dateStore 1414777311 =
        some (dummyTag "f4" 104 2 UpdateChannel.kChannelTest 1414777311)
    ∧ GetByDate dateStore 1415126511 =
        some (dummyTag "f1" 101 5 UpdateChannel.kChannelTest 1415036511) := by
  refine ⟨?_, by decide, by decide, by decide⟩
  intro h ts
  constructor
  · unfold GetByDate
    cases hl : h.filter (fun t => decide (t.timestamp ≤ ts)) with
    | nil =>
      simp only [List.filter_eq_nil_iff] at hl
      refine ⟨fun _ x hx => ?_, fun _ => rfl⟩
      simpa using hl x hx
    | cons t rest =>
      simp only [reduceCtorEq, false_iff, not_forall]
      have ht : t ∈ h.filter (fun t => decide (t.timestamp ≤ ts)) := by
        rw [hl]; exact List.mem_cons_self t rest
      rw [List.mem_filter] at ht
      exact ⟨t, ht.1, by simpa using ht.2⟩
  · intro r hr
    unfold GetByDate at hr
    cases hl : h.filter (fun t => decide (t.timestamp ≤ ts)) with
    | nil => rw [hl] at hr; exact absurd hr (by simp)
    | cons t rest =>
      rw [hl] at hr
      have hr' : rest.foldl laterTag t = r := by simpa using hr
      have hmem : r ∈ h.filter (fun t => decide (t.timestamp ≤ ts)) := by
        rw [hl]
        rcases foldl_laterTag_mem rest t with h1 | h1
        · rw [← hr', h1]; exact List.mem_cons_self t rest
        · rw [← hr']; exact List.mem_cons_of_mem t h1
      rw [List.mem_filter] at hmem
      refine ⟨hmem.1, by simpa using hmem.2, ?_⟩
      intro x hx hxts
      have hxf : x ∈ h.filter (fun t => decide (t.timestamp ≤ ts)) := by
        rw [List.mem_filter]
        exact ⟨hx, by simpa using hxts⟩
      rw [hl] at hxf
      obtain ⟨h1, h2⟩ := foldl_laterTag_le rest t
      rw [hr'] at h1 h2
      rcases List.mem_cons.mp hxf with rfl | hxf
      · exact h1
      · exact h2 x hxf

/-- C6 witness: the characterization applied to the concrete store at the
timestamp of tag `f4`. -/
theorem getByDate_spec_witness :
    dummyTag "f4" 104 2 UpdateChannel.kChannelTest 1414777311 ∈ dateStore
    ∧ (dummyTag "f4" 104 2 UpdateChannel.kChannelTest 1414777311).timestamp
        ≤ 1414777311 :=
  have h := (getByDate_spec.1 dateStore 1414777311).2
    (dummyTag "f4" 104 2 UpdateChannel.kChannelTest 1414777311) (by decide)
  ⟨h.1, h.2.1⟩

/-- C3 (counterexample): on the unit-test store the listing for `moep`
returns four tags and omits `moep_duplicate`, although `moep_duplicate` is
stored on the target's channel with revision at least the target's; the
claimed criterion `revision >= r` is therefore false (the program keeps
same-revision other-name tags, t_history.cc:650). -/
theorem listTagsAffectedByRollback_ge_cex :
    GetByName rollbackStore "moep" = some moepTag
    ∧ (ListTagsAffectedByRollback rollbackStore "moep").map List.length = some 4
    ∧ ((ListTagsAffectedByRollback rollbackStore "moep").map
        fun l => decide (moepDuplicateTag ∈ l)) = some false
    ∧ moepDuplicateTag ∈ rollbackStore
    ∧ moepDuplicateTag.channel = moepTag.channel
    ∧ moepTag.revision ≤ moepDuplicateTag.revision := by
  decide

/-- C3 (amended): for an existing tag name the affected-tag listing succeeds
and returns exactly the tags on the target's channel with revision strictly
greater than the target's together with the target tag itself, ordered by
descending revision (ties unconstrained). -/
theorem listTagsAffectedByRollback_spec (h : History) (n : String) (target : Tag)
    (hget : GetByName h n = some target) :
    (ListTagsAffectedByRollback h n).isSome = true
    ∧ ∀ l, ListTagsAffectedByRollback h n = some l →
        (∀ x, x ∈ l ↔ x ∈ h ∧
          (x.channel = target.channel ∧ target.revision < x.revision
            ∨ x.name = target.name))
        ∧ l.Sorted revGE := by
  constructor
  · rw [ListTagsAffectedByRollback, hget]
    rfl
  · intro l hl
    rw [ListTagsAffectedByRollback, hget] at hl
    have hl' : some (List.insertionSort revGE (h.filter (affectedPred target)))
        = some l := hl
    obtain rfl := Option.some_inj.mp hl'
    constructor
    · intro x
      rw [(List.perm_insertionSort revGE _).mem_iff, List.mem_filter]
      simp [affectedPred]
    · exact List.sorted_insertionSort revGE _

/-- C3 witness: on the unit-test store at tag `moep` the listing returns the
test's four-tag list; by the amended characterization the target itself is a
member and the list is sorted by descending revision. -/
theorem listTagsAffectedByRollback_spec_witness :
    moepTag ∈ affectedMoepList ∧ affectedMoepList.Sorted revGE := by
  have h := (listTagsAffectedByRollback_spec rollbackStore "moep" moepTag
    (by decide)).2 affectedMoepList (by decide)
  exact ⟨(h.1 moepTag).mpr ⟨by decide, Or.inr rfl⟩, h.2⟩

lemma eq_of_mem_of_name_eq {h : History} (hnd : (h.map Tag.name).Nodup)
    {x y : Tag} (hx : x ∈ h) (hy : y ∈ h) (hname : x.name = y.name) : x = y :=
  List.inj_on_of_nodup_map hnd hx hy hname

lemma getByName_of_mem {h : History} (hnd : (h.map Tag.name).Nodup)
    {t : Tag} (ht : t ∈ h) : GetByName h t.name = some t := by
  unfold GetByName
  cases hf : h.find? (fun x => x.name == t.name) with
  | none =>
    rw [List.find?_eq_none] at hf
    exact absurd (hf t ht) (by simp)
  | some y =>
    have hy : y.name = t.name := by simpa using List.find?_some hf
    have hmem : y ∈ h := List.mem_of_find?_eq_some hf
    rw [eq_of_mem_of_name_eq hnd hmem ht hy]

/-- C1 (counterexample): on the unit-test store, rolling `moep` back to
revision 10 succeeds yet `moep_duplicate` still exists afterwards, although
it lies on the target's channel with revision at least the target's and a
different name; the claimed deletion criterion `revision >= r` is therefore
false (the program keeps same-revision other-name tags, t_history.cc:673). -/
theorem rollback_ge_cex :
    GetByName rollbackStore "moep" = some moepTag
    ∧ moepNew.name = moepTag.name
    ∧ maxAffectedRevision rollbackStore moepTag < moepNew.revision
    ∧ (Rollback rollbackStore moepNew).1 = true
    ∧ moepDuplicateTag ∈ rollbackStore
    ∧ moepDuplicateTag.channel = moepTag.channel
    ∧ moepTag.revision ≤ moepDuplicateTag.revision
    ∧ moepDuplicateTag.name ≠ moepTag.name
    ∧ Exists (Rollback rollbackStore moepNew).2 moepDuplicateTag.name = true := by
  decide

/-- C1 (amended): rolling back to a same-named copy of an existing tag whose
revision exceeds every affected revision succeeds; afterwards every other tag
on the target's channel with revision strictly greater than the target's is
gone, every tag on another channel is still stored unchanged, and looking the
target's name up yields the new tag (with its new revision and root hash). -/
theorem rollback_spec (h : History) (target new_tag : Tag)
    (hnd : (h.map Tag.name).Nodup) (hmem : target ∈ h)
    (hname : new_tag.name = target.name)
    (hrev : maxAffectedRevision h target < new_tag.revision) :
    (Rollback h new_tag).1 = true
    ∧ (∀ x ∈ h, x.channel = target.channel → target.revision < x.revision →
        x.name ≠ target.name → Exists (Rollback h new_tag).2 x.name = false)
    ∧ (∀ x ∈ h, x.channel ≠ target.channel → x ∈ (Rollback h new_tag).2)
    ∧ GetByName (Rollback h new_tag).2 target.name = some new_tag := by
  have hget : GetByName h new_tag.name = some target := by
    rw [hname]; exact getByName_of_mem hnd hmem
  have hR : Rollback h new_tag =
      (true, h.filter (fun x => !(affectedPred target x)) ++ [new_tag]) := by
    simp only [Rollback, hget]
    rw [if_pos hrev]
  rw [hR]
  refine ⟨rfl, ?_, ?_, ?_⟩
  · intro x hx hch hrv hne
    show Exists _ x.name = false
    rw [Exists, List.any_append, Bool.or_eq_false_iff]
    constructor
    · rw [List.any_eq_false]
      intro y hy
      rw [List.mem_filter] at hy
      obtain ⟨hyh, hyp⟩ := hy
      intro hbeq
      have hyx : y = x :=
        eq_of_mem_of_name_eq hnd hyh hx (by simpa using hbeq)
      rw [hyx] at hyp
      simp [affectedPred, hch, hrv] at hyp
    · simp [hname]
      exact fun hh => hne hh.symm
  · intro x hx hch
    apply List.mem_append_left
    rw [List.mem_filter]
    refine ⟨hx, ?_⟩
    have hxname : x.name ≠ target.name := fun hn =>
      hch (by rw [eq_of_mem_of_name_eq hnd hx hmem hn])
    simp [affectedPred, hxname]
    exact Or.inl hch
  · rw [GetByName, List.find?_append]
    have hnone : (h.filter fun x => !(affectedPred target x)).find?
        (fun t => t.name == target.name) = none := by
      rw [List.find?_eq_none]
      intro y hy
      rw [List.mem_filter] at hy
      obtain ⟨hyh, hyp⟩ := hy
      intro hbeq
      have : y = target := eq_of_mem_of_name_eq hnd hyh hmem (by simpa using hbeq)
      rw [this] at hyp
      simp [affectedPred] at hyp
    rw [hnone]
    simp [List.find?, hname]

/-- C1 witness: the rollback law applied to the unit-test store at target
`moep` and new revision 10: the rollback succeeds, `lol` is gone, and `moep`
now carries the new tag. -/
theorem rollback_spec_witness :
    (Rollback rollbackStore moepNew).1 = true
    ∧ Exists (Rollback rollbackStore moepNew).2
        (dummyTag "lol" 6 5 UpdateChannel.kChannelTest 564993000).name = false
    ∧ GetByName (Rollback rollbackStore moepNew).2
        (dummyTag "moep" 4 4 UpdateChannel.kChannelTest 564993000).name
        = some moepNew := by
  have h := rollback_spec rollbackStore
    (dummyTag "moep" 4 4 UpdateChannel.kChannelTest 564993000) moepNew
    (by decide) (by decide) (by decide) (by decide)
  exact ⟨h.1, h.2.1 (dummyTag "lol" 6 5 UpdateChannel.kChannelTest 564993000)
    (by decide) (by decide) (by decide) (by decide), h.2.2.2⟩

/-- C7: a `Rollback` whose tag carries a name not present in the store (the
caller renamed the target) fails and leaves the stored tags completely
unchanged. -/
theorem rollback_rename_fails (h : History) (t : Tag)
    (habs : Exists h t.name = false) :
    Rollback h t = (false, h) := by
  have hnone : GetByName h t.name = none := by
    rw [GetByName, List.find?_eq_none]
    rw [Exists, List.any_eq_false] at habs
    exact habs
  unfold Rollback
  rw [hnone]

/-- C7 witness: the unit test's malicious rename (`bar` renamed to `barlol`,
revision 11) fails on the concrete store and returns it unchanged. -/
theorem rollback_rename_fails_witness :
    Rollback rollbackStore
      (dummyTag "barlol" 2 11 UpdateChannel.kChannelTest 564993000)
      = (false, rollbackStore) :=
  rollback_rename_fails rollbackStore
    (dummyTag "barlol" 2 11 UpdateChannel.kChannelTest 564993000) (by decide)

end history

namespace upload

lemma countP_set_of_getElem (p : UploadState → Bool) (l : List UploadState) :
    ∀ (i : Nat) (b v : UploadState), l[i]? = some b →
      (l.set i v).countP p + (if p b then 1 else 0)
        = l.countP p + (if p v then 1 else 0) := by
  induction l with
  | nil => intro i b v h; simp at h
  | cons c tl ih =>
    intro i b v h
    cases i with
    | zero =>
      rw [List.getElem?_cons_zero, Option.some_inj] at h
      subst h
      rw [List.set_cons_zero]
      simp only [List.countP_cons]
      omega
    | succ n =>
      rw [List.getElem?_cons_succ] at h
      have h2 := ih n b v h
      rw [List.set_cons_succ]
      simp only [List.countP_cons]
      omega

lemma mem_of_getElem_some {l : List UploadState} {i : Nat} {a : UploadState}
    (h : l[i]? = some a) : a ∈ l := by
  obtain ⟨hlt, heq⟩ := List.getElem?_eq_some.mp h
  exact heq ▸ List.getElem_mem hlt

lemma all_eq_countP_length (p : UploadState → Bool) (l : List UploadState) :
    l.all p = (l.countP p == l.length) := by
  cases hq : l.countP p == l.length with
  | true =>
    rw [List.all_eq_true.mpr (List.countP_eq_length.mp (by simpa using hq))]
  | false =>
    cases hall : l.all p with
    | false => rfl
    | true =>
      have := List.countP_eq_length.mpr (fun a ha => List.all_eq_true.mp hall a ha)
      simp [this] at hq

/-- The bookkeeping invariant of reachable `PendingFile` states:
`chunks_uploaded` counts the terminated uploads, `errors` counts the failed
ones, and `uploading_complete` is up exactly when at least one chunk is
registered and all registered uploads have terminated. -/
lemma reachable_invariant {s : PendingFileState} (hr : Reachable s) :
    s.chunks_uploaded = s.file_chunks.countP nonPending
    ∧ s.errors = s.file_chunks.countP isFailed
    ∧ s.uploading_complete =
        (decide (s.file_chunks ≠ []) && s.file_chunks.all nonPending) := by
  induction hr with
  | init => exact ⟨rfl, rfl, rfl⟩
  | @add s hr hpc hcu ih =>
    obtain ⟨ih1, ih2, ih3⟩ := ih
    refine ⟨?_, ?_, ?_⟩
    · show s.chunks_uploaded =
        (s.file_chunks ++ [UploadState.kUploadPending]).countP nonPending
      rw [List.countP_append]
      simpa [nonPending] using ih1
    · show s.errors =
        (s.file_chunks ++ [UploadState.kUploadPending]).countP isFailed
      rw [List.countP_append]
      simpa [isFailed] using ih2
    · show s.uploading_complete =
        (decide (s.file_chunks ++ [UploadState.kUploadPending] ≠ []) &&
          (s.file_chunks ++ [UploadState.kUploadPending]).all nonPending)
      have hcount : s.file_chunks.countP nonPending = 0 := hcu ▸ ih1.symm
      have hrhs : (s.file_chunks ++ [UploadState.kUploadPending]).all nonPending
          = false := by
        simp [List.all_append, nonPending]
      rw [hrhs, Bool.and_false, ih3]
      cases hall : s.file_chunks.all nonPending with
      | false => rw [Bool.and_false]
      | true =>
        have hlen := List.countP_eq_length.mpr
          (fun a ha => List.all_eq_true.mp hall a ha)
        rw [hcount] at hlen
        have : s.file_chunks = [] := List.length_eq_zero.mp (by omega)
        simp [this]
  | fin hr ih => simpa [FinalizeProcessing] using ih
  | @callback s i ok hr hpend ih =>
    obtain ⟨ih1, ih2, ih3⟩ := ih
    have hlt : i < s.file_chunks.length := (List.getElem?_eq_some.mp hpend).1
    have hpmem : UploadState.kUploadPending ∈ s.file_chunks :=
      mem_of_getElem_some hpend
    have hnp : s.file_chunks.all nonPending = false := by
      cases hall : s.file_chunks.all nonPending with
      | false => rfl
      | true =>
        have := List.all_eq_true.mp hall _ hpmem
        simp [nonPending] at this
    set v := if ok then UploadState.kUploadSuccessful else UploadState.kUploadFailed
      with hv
    have hcnp := countP_set_of_getElem nonPending s.file_chunks i
      UploadState.kUploadPending v hpend
    have hcf := countP_set_of_getElem isFailed s.file_chunks i
      UploadState.kUploadPending v hpend
    have hvnp : nonPending v = true := by
      cases ok <;> simp [hv, nonPending]
    have hpnp : nonPending UploadState.kUploadPending = false := by
      simp [nonPending]
    have hpf : isFailed UploadState.kUploadPending = false := by
      simp [isFailed]
    rw [hpnp, hvnp] at hcnp
    simp only [Bool.false_eq_true, if_false, if_true] at hcnp
    refine ⟨?_, ?_, ?_⟩
    · show s.chunks_uploaded + 1 = (s.file_chunks.set i v).countP nonPending
      omega
    · show s.errors + (if ok then 0 else 1) = (s.file_chunks.set i v).countP isFailed
      rw [hpf] at hcf
      have hvf : (if isFailed v then 1 else 0) = (if ok then 0 else 1) := by
        cases ok <;> simp [hv, isFailed]
      rw [hvf] at hcf
      simp only [Bool.false_eq_true, if_false] at hcf
      omega
    · show (s.uploading_complete || (s.chunks_uploaded + 1 == s.file_chunks.length))
        = (decide (s.file_chunks.set i v ≠ []) && (s.file_chunks.set i v).all nonPending)
      have huc : s.uploading_complete = false := by
        rw [ih3, hnp, Bool.and_false]
      have hne : decide (s.file_chunks.set i v ≠ []) = true := by
        apply decide_eq_true
        intro hemp
        have := List.length_set s.file_chunks i v
        rw [hemp] at this
        simp at this
        omega
      rw [huc, Bool.false_or, hne, Bool.true_and]
      rw [all_eq_countP_length]
      have : (s.file_chunks.set i v).countP nonPending
          = s.file_chunks.countP nonPending + 1 := by omega
      rw [this, List.length_set, ← ih1]


lemma all_nonPending_and_no_failed (l : List UploadState) :
    (l.all nonPending && (l.countP isFailed == 0)) = l.all isSuccessful := by
  induction l with
  | nil => rfl
  | cons c tl ih =>
    cases c <;>
      simp [List.all_cons, List.countP_cons, nonPending, isFailed, isSuccessful, ih]

/-- C5: on every reachable `PendingFile` state with at least one registered
chunk (every job registers at least its bulk artifact),
`IsCompletedSuccessfully` holds exactly when processing is complete and every
registered chunk reached upload success; in particular it is false whenever
`errors` is positive or `uploading_complete` is down. -/
theorem pendingFile_completion (s : PendingFileState) (hr : Reachable s)
    (hne : s.file_chunks ≠ []) :
    (IsCompletedSuccessfully s
      = (s.processing_complete && s.file_chunks.all isSuccessful))
    ∧ (0 < s.errors → IsCompletedSuccessfully s = false)
    ∧ (s.uploading_complete = false → IsCompletedSuccessfully s = false) := by
  obtain ⟨h1, h2, h3⟩ := reachable_invariant hr
  refine ⟨?_, fun herr => ?_, fun huc => ?_⟩
  · rw [IsCompletedSuccessfully, IsCompleted, h3, h2, decide_eq_true hne,
      Bool.true_and, Bool.and_assoc, all_nonPending_and_no_failed]
  · rw [IsCompletedSuccessfully]
    have hz : (s.errors == 0) = false :=
      beq_eq_false_iff_ne.mpr (Nat.pos_iff_ne_zero.mp herr)
    rw [hz, Bool.and_false]
  · rw [IsCompletedSuccessfully, IsCompleted, huc, Bool.and_false, Bool.false_and]

/-- C5 witness: the completion characterization at a concrete single-chunk
run whose upload succeeded. -/
theorem pendingFile_completion_witness :
    IsCompletedSuccessfully demoPendingFile
      = (demoPendingFile.processing_complete
          && demoPendingFile.file_chunks.all isSuccessful) :=
  (pendingFile_completion demoPendingFile
    (Reachable.callback (Reachable.fin (Reachable.add Reachable.init rfl rfl))
      (by decide))
    (by decide)).1

end upload
